import Mathlib

/-!
Verification development for the fitness-coach backend
(`app.py`, `memory.py`, `user_profile.py`, `tools.py`, `processor.py`,
`strava_client.py`).

The Python sources are shallowly embedded: pure functions become Lean
functions, the on-disk JSON stores become explicit maps from user id,
machine floats become rationals, raising code returns `Except String`
(the error message plays the role of `str(e)`), and the remote language
model is an oracle supplying one response per `chat.send_message` call.
-/

namespace Fitness

/-! ## Generic helpers -/

/-- Python slice `xs[-n:]`: the last `n` elements of a list (all of them when
the list is shorter than `n`). -/
def lastN (n : Nat) (xs : List α) : List α :=
  xs.drop (xs.length - n)

/-- Python `int(x)` on a rational: truncation toward zero. -/
def pyInt (x : ℚ) : ℤ :=
  if 0 ≤ x then ⌊x⌋ else -⌊-x⌋

/-- Python `round(x)` to an integer: round half to even, modelled on
exact rationals. -/
def roundHalfEven (x : ℚ) : ℤ :=
  let f : ℤ := ⌊x⌋
  let r : ℚ := x - f
  if r < 1 / 2 then f
  else if 1 / 2 < r then f + 1
  else if f % 2 = 0 then f else f + 1

/-- Python `round(x, 1)`. -/
def pyRound1 (x : ℚ) : ℚ :=
  (roundHalfEven (x * 10) : ℚ) / 10

/-- Python `round(x, 2)`. -/
def pyRound2 (x : ℚ) : ℚ :=
  (roundHalfEven (x * 100) : ℚ) / 100

/-- Rendering of a nonnegative-or-negative rational with one decimal digit,
modelling Python `str()` on the one-decimal floats produced by `round(x, 1)`
(for example `30.0` renders as "30.0" and `30.5` as "30.5"). -/
def formatDec1 (x : ℚ) : String :=
  let sign := if x < 0 then "-" else ""
  let y := |x|
  sign ++ toString ⌊y⌋ ++ "." ++ toString (⌊y * 10⌋ % 10)

/-- Rendering of a rational with up to two decimal digits, modelling Python
`str()` on the floats produced by `round(x, 2)`: a trailing zero hundredths
digit is not printed (`2.5`, not `2.50`). -/
def formatDec2 (x : ℚ) : String :=
  if ⌊|x| * 100⌋ % 10 = 0 then formatDec1 x
  else
    let sign := if x < 0 then "-" else ""
    let y := |x|
    sign ++ toString ⌊y⌋ ++ "." ++ toString (⌊y * 10⌋ % 10) ++
      toString (⌊y * 100⌋ % 10)

/-- Python `str()` of a raw JSON number: integers render without a decimal
point. Non-integral values are rendered as an exact fraction here; the
shortest-round-trip decimal representation of binary floats is not modelled
(no claim depends on it). -/
def pyNumStr (x : ℚ) : String :=
  if x.den = 1 then toString x.num
  else toString x.num ++ "/" ++ toString x.den

/-- Python `str()` of an optional JSON number (`None` renders as "None"). -/
def pyOptNumStr (x : Option ℚ) : String :=
  match x with
  | none => "None"
  | some v => pyNumStr v

/-- Python `str()` of an optional integer id. -/
def pyOptIntStr (x : Option ℤ) : String :=
  match x with
  | none => "None"
  | some v => toString v

/-- Python `str()` of an optional string (`None` renders as "None"). -/
def pyOptStr (x : Option String) : String :=
  match x with
  | none => "None"
  | some s => s

/-- Truthiness of an optional number in Python: `None`, `0` and `0.0` are
falsy, every other number is truthy. -/
def pyTruthy (x : Option ℚ) : Bool :=
  match x with
  | none => false
  | some q => decide (q ≠ 0)

/-! ## memory.py — conversation history store -/

/-- One role-tagged message of a conversation transcript
(`{"role": ..., "content": ...}` in `memory.py`). -/
structure Turn where
  role : String
  content : String
deriving DecidableEq, Repr

/-- The `conversation_memory/` directory: for each user id, either no history
file (`none`) or the parsed JSON list stored in `<user_id>.json`. -/
def MemoryStore : Type := String → Option (List Turn)

/-- Embeds `memory.MAX_HISTORY_LENGTH`. -/
def MAX_HISTORY_LENGTH : Nat := 10

/-- Embeds `memory.get_conversation_history`: missing file gives `[]`, otherwise the
last `MAX_HISTORY_LENGTH` entries of the stored list. -/
def get_conversation_history (store : MemoryStore) (user_id : String) :
    List Turn :=
  match store user_id with
  | none => []
  | some history => lastN MAX_HISTORY_LENGTH history

/-- Embeds `memory.update_conversation_history`: re-read the history, append the new
user/assistant exchange, prune to the last `MAX_HISTORY_LENGTH` turns, write
the file back. -/
def update_conversation_history (store : MemoryStore) (user_id : String)
    (user_query ai_response : String) : MemoryStore :=
  let history := get_conversation_history store user_id
  let history := history ++
    [Turn.mk "user" user_query, Turn.mk "assistant" ai_response]
  let history_to_save := lastN MAX_HISTORY_LENGTH history
  fun uid => if uid = user_id then some history_to_save else store uid

/-! ## user_profile.py — profile store -/

/-- One record of `user_profiles.json`; an absent field models an absent JSON
key. Numeric values are modelled as rationals (weights are floats and FTP an
integer in the source; both live in `ℚ` here). -/
structure Profile where
  weight_kg : Option ℚ
  ftp : Option ℚ
deriving DecidableEq, Repr

/-- An empty profile record (the `{}` placed for a fresh user). -/
def Profile.empty : Profile := ⟨none, none⟩

/-- Embeds `user_profiles.json`: `none` for user ids with no record. -/
def ProfileStore : Type := String → Option Profile

/-- Embeds `user_profile.get_user_profile`: `profiles.get(user_id, {})`. -/
def get_user_profile (profiles : ProfileStore) (user_id : String) : Profile :=
  (profiles user_id).getD Profile.empty

/-- Embeds `user_profile.update_user_profile`: read-modify-write of the whole
profiles file. Each field is guarded by Python truthiness (`if weight_kg:`,
`if ftp:`), so a `None` or zero argument leaves the field alone. Returns the
new store and `profiles[user_id]`. -/
def update_user_profile (profiles : ProfileStore) (user_id : String)
    (weight_kg ftp : Option ℚ) : ProfileStore × Profile :=
  let p0 := (profiles user_id).getD Profile.empty
  let p1 := if pyTruthy weight_kg then { p0 with weight_kg := weight_kg } else p0
  let p2 := if pyTruthy ftp then { p1 with ftp := ftp } else p1
  (fun uid => if uid = user_id then some p2 else profiles uid, p2)

/-! ## Strava data model (strava_client.py abstraction)

Raw activity records are the JSON objects returned by the activities-list
endpoint; a missing key is `none` (`act.get(...)` semantics). The local date
of an activity is modelled abstractly: `LocalDate.dateStr` is the substring
of `start_date_local` before the `"T"` and `LocalDate.day` is the day ordinal
that `datetime.strptime` assigns to it. -/

/-- The date part of the `start_date_local` field of an activity. -/
structure LocalDate where
  day : ℤ
  dateStr : String
deriving DecidableEq, Repr

/-- One raw Strava activity record (the fields read by `processor.py` and
`tools.py`). -/
structure Activity where
  id : Option ℤ
  name : Option String
  start_date_local : Option LocalDate
  distance : Option ℚ
  total_elevation_gain : Option ℚ
  moving_time : Option ℚ
  pr_count : Option ℚ
  athlete_count : Option ℚ
  average_watts : Option ℚ
  weighted_average_watts : Option ℚ
  suffer_score : Option ℚ
  average_heartrate : Option ℚ
  max_heartrate : Option ℚ
deriving DecidableEq, Repr

/-- A blank raw activity (every JSON key absent). -/
def Activity.blank : Activity :=
  ⟨none, none, none, none, none, none, none, none, none, none, none, none, none⟩

/-- The stream dictionary produced by `fetch_activity_streams`, restricted to
the stream types `analyze_streams` reads; an absent key is `none`. A `None`
result or an empty/falsy dictionary from the fetch is represented by `none`
at the `World.fetchStreams` level. -/
structure StreamSet where
  heartrate : Option (List ℚ)
  velocity_smooth : Option (List ℚ)
  altitude : Option (List ℚ)
deriving DecidableEq, Repr

/-- The environment one `/coach` request runs against: the profiles file plus,
for each user id, the outcome of the Strava fetches made with the
credentials of that user (`fetch_recent_activities` raises `HTTPException` on failure,
modelled by `Except.error` carrying `str(e)`; `fetch_activity_streams`
catches everything and returns `None`, modelled by `Option`). `now` is the
current day ordinal used by the seven-day split in `check_progression`.
Token storage and refresh are folded into the per-user fetch outcome (a
refresh reads and writes only the token record of that same user). -/
structure World where
  profiles : ProfileStore
  fetchActivities : String → Nat → Except String (List Activity)
  fetchStreams : String → ℚ → Option StreamSet
  now : ℤ

/-! ## processor.py — pure insight functions -/

/-- Embeds `processor.get_primary_hr_zone`. -/
def get_primary_hr_zone (average_hr max_hr : Option ℚ) : String :=
  match average_hr, max_hr with
  | some ah, some mh =>
      if ah = 0 ∨ mh = 0 then "N/A"
      else if ah < mh * 0.6 then "Zone 1 (Recovery)"
      else if ah < mh * 0.7 then "Zone 2 (Endurance)"
      else if ah < mh * 0.8 then "Zone 3 (Tempo)"
      else if ah < mh * 0.9 then "Zone 4 (Threshold)"
      else "Zone 5 (Anaerobic)"
  | _, _ => "N/A"

/-- Embeds `processor.interpret_suffer_score`. -/
def interpret_suffer_score (score : Option ℚ) : String :=
  match score with
  | none => "N/A"
  | some s =>
      if s < 25 then pyNumStr s ++ " (Light Effort)"
      else if s < 75 then pyNumStr s ++ " (Moderate Effort)"
      else if s < 125 then pyNumStr s ++ " (Tough Workout)"
      else pyNumStr s ++ " (All-Out Effort)"

/-- Embeds `processor.classify_ride_type`. -/
def classify_ride_type (distance_m elevation_m : ℚ) : String :=
  if distance_m = 0 then "Stationary"
  else
    let climbPerKm := elevation_m / (distance_m / 1000)
    if climbPerKm > 20 then "Mountainous Climb"
    else if climbPerKm > 10 then "Hilly Ride"
    else if distance_m > 80000 then "Long Endurance Ride"
    else "Rolling/Flat Ride"

/-- Embeds `processor.calculate_power_to_weight`. -/
def calculate_power_to_weight (watts weight_kg : Option ℚ) : Option ℚ :=
  match watts, weight_kg with
  | some w, some kg =>
      if w = 0 ∨ kg = 0 then none else some (pyRound2 (w / kg))
  | _, _ => none

/-- The value stored under `"watts_per_kg"` in a processed-activity dict:
either a number, Python `None`, or the sentinel string. -/
inductive WpkVal where
  | num (q : ℚ)
  | noneVal
  | na
deriving DecidableEq, Repr

/-- One entry of the list built by `processor.process_activities`. -/
structure ProcessedActivity where
  id : Option ℤ
  name : Option String
  date : String
  distance_km : ℚ
  elevation_m : ℤ
  moving_time_min : ℚ
  pr_count : ℚ
  athlete_count : ℚ
  average_watts : Option ℚ
  weighted_average_watts : Option ℚ
  watts_per_kg : WpkVal
  ride_type : String
  suffer_score_interpretation : String
  primary_hr_zone : String
deriving DecidableEq, Repr

/-- The body of `processor.process_activities` for one activity record. -/
def process_activity (act : Activity) (user_weight_kg : Option ℚ) :
    ProcessedActivity :=
  { id := act.id
    name := act.name
    date := (act.start_date_local.map LocalDate.dateStr).getD ""
    distance_km := pyRound1 ((act.distance.getD 0) / 1000)
    elevation_m := pyInt (act.total_elevation_gain.getD 0)
    moving_time_min := pyRound1 ((act.moving_time.getD 0) / 60)
    pr_count := act.pr_count.getD 0
    athlete_count := act.athlete_count.getD 1
    average_watts := act.average_watts
    weighted_average_watts := act.weighted_average_watts
    watts_per_kg :=
      if pyTruthy user_weight_kg ∧ pyTruthy act.average_watts then
        match calculate_power_to_weight act.average_watts user_weight_kg with
        | some q => WpkVal.num q
        | none => WpkVal.noneVal
      else WpkVal.na
    ride_type :=
      classify_ride_type (act.distance.getD 0) (act.total_elevation_gain.getD 0)
    suffer_score_interpretation := interpret_suffer_score act.suffer_score
    primary_hr_zone :=
      get_primary_hr_zone act.average_heartrate act.max_heartrate }

/-- Embeds `processor.process_activities`. -/
def process_activities (activities_json : List Activity)
    (user_weight_kg : Option ℚ) : List ProcessedActivity :=
  activities_json.map (fun act => process_activity act user_weight_kg)

/-- Embeds `processor.calculate_progression`: the total distance of the
current week against one quarter of the total over the trailing activities,
as a percentage-framed trend sentence. -/
def calculate_progression (current_week_activities past_month_activities :
    List ProcessedActivity) : String :=
  if past_month_activities = [] then
    "Not enough historical data to calculate progression."
  else
    let current_dist := (current_week_activities.map (·.distance_km)).sum
    let current_elev := (current_week_activities.map (fun a => (a.elevation_m : ℚ))).sum
    let past_dist := (past_month_activities.map (·.distance_km)).sum
    let past_elev := (past_month_activities.map (fun a => (a.elevation_m : ℚ))).sum
    let avg_past_dist_weekly := past_dist / 4
    let avg_past_elev_weekly := past_elev / 4
    let avg_past_dist_weekly := if avg_past_dist_weekly = 0 then 1 else avg_past_dist_weekly
    let dist_diff_percent := ((current_dist - avg_past_dist_weekly) / avg_past_dist_weekly) * 100
    let trend := if dist_diff_percent > 0 then "improving" else "decreasing"
    "Your weekly volume is " ++ toString (pyInt dist_diff_percent).natAbs ++
      "% " ++ trend ++ " compared to your 4-week average."

/-- Sum of the positive consecutive altitude gains, as in the loop of
`processor.analyze_streams`. -/
def climbSum : List ℚ → ℚ
  | a :: b :: rest => (if b > a then b - a else 0) + climbSum (b :: rest)
  | _ => 0

/-- Fixed one-decimal float formatting, Python `f"{x:.1f}"`. -/
def formatF1 (x : ℚ) : String :=
  formatDec1 (pyRound1 x)

/-- Embeds `processor.analyze_streams`: heart-rate, speed and altitude narratives
joined with newlines. The caller (`analyze_specific_ride_depth`) has already
filtered out falsy stream dictionaries, so the input here is a present,
non-empty dictionary. -/
def analyze_streams (stream_data : StreamSet) (activity_name : String) : String :=
  let hrLines : List String :=
    match stream_data.heartrate with
    | some (h :: t) =>
        let hr_data := h :: t
        let max_hr := t.foldl max h
        let min_hr := t.foldl min h
        let avg_hr := hr_data.sum / (hr_data.length : ℚ)
        let high_effort_threshold := max_hr * 0.85
        let time_at_high_effort :=
          ((hr_data.filter (fun hr => hr ≥ high_effort_threshold)).length : ℚ) * 10
        ["Heart Rate Analysis for \x27" ++ activity_name ++ "\x27:",
         "  - Max HR: " ++ pyNumStr max_hr ++ " bpm",
         "  - Min HR: " ++ pyNumStr min_hr ++ " bpm",
         "  - Avg HR: " ++ formatF1 avg_hr ++ " bpm"] ++
        (if time_at_high_effort > 0 then
          ["  - Spent approximately " ++ formatDec1 (pyRound1 (time_at_high_effort / 60)) ++
            " minutes at high intensity (over " ++ toString (roundHalfEven high_effort_threshold) ++
            " bpm)."]
        else [])
    | _ => []
  let speedLines : List String :=
    match stream_data.velocity_smooth with
    | some (v :: vs) =>
        let speed_data := (v :: vs).map (fun s => s * 3.6)
        let max_speed := (speed_data.tail).foldl max (speed_data.headI)
        let avg_speed := speed_data.sum / (speed_data.length : ℚ)
        ["Speed Analysis for \x27" ++ activity_name ++ "\x27:",
         "  - Max Speed: " ++ formatF1 max_speed ++ " km/h",
         "  - Avg Speed: " ++ formatF1 avg_speed ++ " km/h"]
    | _ => []
  let altLines : List String :=
    match stream_data.altitude with
    | some (a :: rest) =>
        let total_climb := climbSum (a :: rest)
        ["Altitude Analysis for \x27" ++ activity_name ++ "\x27:",
         "  - Estimated total climb (from streams): " ++ toString (pyInt total_climb) ++
           " meters (Note: This might differ from Strava\x27s summary due to smoothing/algorithm)."]
    | _ => []
  let analysis_results := hrLines ++ speedLines ++ altLines
  if analysis_results = [] then
    "No specific analysis could be performed for " ++ activity_name ++
      " with the available stream data."
  else
    String.intercalate "\n" analysis_results

/-! ## tools.py — the tool implementations

Each tool returns `Except String (String × World)`: `Except.error msg` models
an exception escaping the tool (with `msg` playing `str(e)`), and an `ok`
result carries the returned text and the possibly-updated world. -/

/-- Summary line for one processed activity, from the loop in
`tools.get_recent_activities_summary`. -/
def activitySummaryLine (act : ProcessedActivity) : String :=
  "- ID: " ++ pyOptIntStr act.id ++ " | " ++ pyOptStr act.name ++ " (" ++
    act.date ++ "): " ++ formatDec1 act.distance_km ++ "km, " ++
    toString act.elevation_m ++ "m elev, " ++ act.ride_type ++ ". " ++
  (match act.watts_per_kg with
   | WpkVal.na => ""
   | WpkVal.noneVal => "Power: None W/kg. "
   | WpkVal.num q => "Power: " ++ formatDec2 q ++ " W/kg. ") ++
  "Intensity: " ++ act.suffer_score_interpretation ++ ".\n"

/-- Embeds `tools.get_recent_activities_summary`: fetch 14 days of activities, look
up the stored weight, process, and format a digest. -/
def get_recent_activities_summary (user_id : String) (w : World) :
    Except String (String × World) :=
  match w.fetchActivities user_id 14 with
  | Except.error e => Except.error e
  | Except.ok raw_data =>
      if raw_data = [] then Except.ok ("No recent activities found.", w)
      else
        let profile := get_user_profile w.profiles user_id
        let weight := profile.weight_kg
        let processed := process_activities raw_data weight
        let summary :=
          "Found " ++ toString processed.length ++
            " activities in the last 14 days:\n" ++
            String.join (processed.map activitySummaryLine)
        Except.ok (summary, w)

/-- Embeds `tools.analyze_specific_ride_depth`: fetch the streams of one activity and
narrate them; a failed or falsy fetch gives the fixed failure sentence. -/
def analyze_specific_ride_depth (user_id : String) (activity_id : ℚ)
    (w : World) : Except String (String × World) :=
  let activity_name := "Activity " ++ pyNumStr activity_id
  match w.fetchStreams user_id activity_id with
  | none => Except.ok ("Could not fetch detailed data streams for this activity.", w)
  | some streams => Except.ok (analyze_streams streams activity_name, w)

/-- The error message of the `KeyError` raised by
`act["start_date_local"]` on a record missing that key. -/
def keyErrorStartDate : String := "\x27start_date_local\x27"

/-- The date-splitting loop of `tools.check_progression`: each activity is
processed individually and routed to the current week (strictly newer than
seven days ago) or the trailing weeks; a record without `start_date_local`
raises `KeyError`. -/
def splitByDate (seven_days_ago : ℤ) :
    List Activity → Except String (List ProcessedActivity × List ProcessedActivity)
  | [] => Except.ok ([], [])
  | act :: rest =>
      match act.start_date_local with
      | none => Except.error keyErrorStartDate
      | some d =>
          let processed_act := process_activity act none
          match splitByDate seven_days_ago rest with
          | Except.error e => Except.error e
          | Except.ok (current_week, past_weeks) =>
              if d.day > seven_days_ago then
                Except.ok (processed_act :: current_week, past_weeks)
              else
                Except.ok (current_week, processed_act :: past_weeks)

/-- Embeds `tools.check_progression`: fetch 30 days of activities, split them around
seven days ago, and hand both windows to `calculate_progression`. -/
def check_progression (user_id : String) (w : World) :
    Except String (String × World) :=
  match w.fetchActivities user_id 30 with
  | Except.error e => Except.error e
  | Except.ok raw_data =>
      if raw_data = [] then Except.ok ("Not enough data to check progression.", w)
      else
        match splitByDate (w.now - 7) raw_data with
        | Except.error e => Except.error e
        | Except.ok (current_week, past_weeks) =>
            Except.ok (calculate_progression current_week past_weeks, w)

/-- Display of `updated.get(field, "?")` in the confirmation text of
`tools.update_user_physical_stats`. -/
def statDisplay (x : Option ℚ) : String :=
  match x with
  | none => "?"
  | some v => pyNumStr v

/-- Embeds `tools.update_user_physical_stats`: persist the supplied fields through
`update_user_profile` and confirm. -/
def update_user_physical_stats (user_id : String) (weight_kg ftp : Option ℚ)
    (w : World) : Except String (String × World) :=
  let (profiles2, updated) := update_user_profile w.profiles user_id weight_kg ftp
  Except.ok ("Profile updated. Weight: " ++ statDisplay updated.weight_kg ++
    "kg, FTP: " ++ statDisplay updated.ftp ++ "W.", { w with profiles := profiles2 })

/-! ## app.py — tool declarations, dispatch map and the agent loop -/

/-- Name and parameter list of one function declaration handed to the remote
model (`create_gemini_chat`, step 1). -/
structure FunctionDecl where
  fname : String
  params : List String
deriving DecidableEq, Repr

/-- The four stub declarations bundled for the model in `create_gemini_chat`:
`my_recent_activities()`, `analyze_ride(activity_id)`, `my_progression()`,
`update_stats(weight_kg, ftp)`. -/
def gemini_tool_declarations : List FunctionDecl :=
  [⟨"my_recent_activities", []⟩,
   ⟨"analyze_ride", ["activity_id"]⟩,
   ⟨"my_progression", []⟩,
   ⟨"update_stats", ["weight_kg", "ftp"]⟩]

/-- The argument mapping of a function-call directive. All parameters the
model can legally supply are numeric, so values are modelled as rationals. -/
def Args : Type := List (String × ℚ)

/-- Message of the `TypeError` raised by a call that passes a keyword argument
twice, as happens for `func(user_id=..., **tool_args)` when the model supplies
`user_id` itself. (The CPython wording is abbreviated.) -/
def typeErrorMultiple (f : String) : String :=
  f ++ "() got multiple values for keyword argument \x27user_id\x27"

/-- Message of the `TypeError` raised for an unexpected keyword argument. -/
def typeErrorUnexpected (f k : String) : String :=
  f ++ "() got an unexpected keyword argument \x27" ++ k ++ "\x27"

/-- Message of the `TypeError` raised for a missing required argument. -/
def typeErrorMissing (f k : String) : String :=
  f ++ "() missing 1 required positional argument: \x27" ++ k ++ "\x27"

/-- First argument key not accepted by the callee. -/
def firstUnexpectedKey (allowed : List String) (args : Args) : Option String :=
  (args.map Prod.fst).find? (fun k => !(allowed.contains k))

/-- Semantics of `GEMINI_TOOL_MAP["my_recent_activities"]` applied as
`func(user_id=query.user_id, **tool_args)`: keyword binding against
`get_recent_activities_summary(user_id)`. -/
def call_get_recent_activities_summary (user_id : String) (args : Args)
    (w : World) : Except String (String × World) :=
  if (args.map Prod.fst).contains "user_id" then
    Except.error (typeErrorMultiple "get_recent_activities_summary")
  else
    match firstUnexpectedKey [] args with
    | some k => Except.error (typeErrorUnexpected "get_recent_activities_summary" k)
    | none => get_recent_activities_summary user_id w

/-- Semantics of `GEMINI_TOOL_MAP["analyze_ride"]` applied with injected
`user_id`: keyword binding against
`analyze_specific_ride_depth(user_id, activity_id)`. -/
def call_analyze_specific_ride_depth (user_id : String) (args : Args)
    (w : World) : Except String (String × World) :=
  if (args.map Prod.fst).contains "user_id" then
    Except.error (typeErrorMultiple "analyze_specific_ride_depth")
  else
    match firstUnexpectedKey ["activity_id"] args with
    | some k => Except.error (typeErrorUnexpected "analyze_specific_ride_depth" k)
    | none =>
        match args.lookup "activity_id" with
        | none => Except.error (typeErrorMissing "analyze_specific_ride_depth" "activity_id")
        | some aid => analyze_specific_ride_depth user_id aid w

/-- Semantics of `GEMINI_TOOL_MAP["my_progression"]` applied with injected
`user_id`: keyword binding against `check_progression(user_id)`. -/
def call_check_progression (user_id : String) (args : Args) (w : World) :
    Except String (String × World) :=
  if (args.map Prod.fst).contains "user_id" then
    Except.error (typeErrorMultiple "check_progression")
  else
    match firstUnexpectedKey [] args with
    | some k => Except.error (typeErrorUnexpected "check_progression" k)
    | none => check_progression user_id w

/-- Semantics of `GEMINI_TOOL_MAP["update_stats"]` applied with injected
`user_id`: keyword binding against
`update_user_physical_stats(user_id, weight_kg=None, ftp=None)`. -/
def call_update_user_physical_stats (user_id : String) (args : Args)
    (w : World) : Except String (String × World) :=
  if (args.map Prod.fst).contains "user_id" then
    Except.error (typeErrorMultiple "update_user_physical_stats")
  else
    match firstUnexpectedKey ["weight_kg", "ftp"] args with
    | some k => Except.error (typeErrorUnexpected "update_user_physical_stats" k)
    | none =>
        update_user_physical_stats user_id (args.lookup "weight_kg")
          (args.lookup "ftp") w

/-- Embeds `app.GEMINI_TOOL_MAP`: the dispatch dictionary from the simple names the
model sees to the backend functions, packaged together with the keyword
binding performed at the call site. -/
def GEMINI_TOOL_MAP (name : String) :
    Option (String → Args → World → Except String (String × World)) :=
  if name = "my_recent_activities" then some call_get_recent_activities_summary
  else if name = "analyze_ride" then some call_analyze_specific_ride_depth
  else if name = "my_progression" then some call_check_progression
  else if name = "update_stats" then some call_update_user_physical_stats
  else none

/-- The dispatch step of `coach_session` (app.py lines 138-147): look the tool
up, run it with the user id of the request injected, catch any exception into an
in-band error string, or synthesize the not-found error. Returns the result
text and the world left by the tool. -/
def dispatchToolCall (w : World) (request_user_id tool_name : String)
    (tool_args : Args) : String × World :=
  match GEMINI_TOOL_MAP tool_name with
  | some func_to_run =>
      match func_to_run request_user_id tool_args w with
      | Except.ok (result, w2) => (result, w2)
      | Except.error e => ("Error executing " ++ tool_name ++ ": " ++ e, w)
  | none => ("Error: Tool " ++ tool_name ++ " not found.", w)

/-- One response of the remote model to `chat.send_message`: either a
function-call directive (`response.parts[0].function_call` truthy) or a final
text payload. -/
inductive ModelResponse where
  | functionCall (name : String) (args : Args)
  | text (t : String)

/-- Outcome of one `chat.send_message` call: the remote call itself may raise
(network/SDK failure), or deliver a response. -/
inductive SendResult where
  | raise (msg : String)
  | resp (r : ModelResponse)

/-- A remote model: the `i`-th `send_message` of the request gets `oracle i`. -/
def Oracle : Type := Nat → SendResult

/-- A model that never raises, described by its responses alone. -/
def pureOracle (f : Nat → ModelResponse) : Oracle :=
  fun i => SendResult.resp (f i)

/-- One message passed to `chat.send_message`: the initial user transcript, or
the function-response dictionary built after a tool dispatch (tagged with the
originating tool name). -/
inductive Content where
  | userText (s : String)
  | functionResponse (name : String) (result : String)
deriving DecidableEq

/-- State threaded through the tool-calling loop of `coach_session`:
the current `ai_text`, how many `chat.send_message` calls have been made,
the contents passed to them (in order), and the world as mutated by
dispatched tools. -/
structure LoopState where
  ai_text : String
  sends : Nat
  sent : List Content
  world : World

/-- The fallback apology `ai_text` is initialized to in `coach_session`. -/
def FALLBACK_APOLOGY : String := "I\x27m sorry, I couldn\x27t process your request."

/-- The manual tool-calling loop of `coach_session` (`for _ in range(10)`),
with the remaining iteration count as fuel. Each iteration sends the current
content to the model; a raising send propagates, a function call is
dispatched and its result becomes the next content, a text response sets
`ai_text` and breaks. -/
def agentLoopAux (oracle : Oracle) (user_id : String) :
    Nat → Content → LoopState → Except String LoopState
  | 0, _, st => Except.ok st
  | fuel + 1, current_content, st =>
      match oracle st.sends with
      | SendResult.raise e => Except.error e
      | SendResult.resp r =>
          let st' : LoopState :=
            { st with sends := st.sends + 1, sent := st.sent ++ [current_content] }
          match r with
          | ModelResponse.text t => Except.ok { st' with ai_text := t }
          | ModelResponse.functionCall tool_name tool_args =>
              let (result, w2) := dispatchToolCall st'.world user_id tool_name tool_args
              agentLoopAux oracle user_id fuel
                (Content.functionResponse tool_name result) { st' with world := w2 }

/-- The agent loop of one `/coach` request: ten iterations at most, starting
from the user transcript, with `ai_text` seeded with the fallback apology. -/
def agentLoop (oracle : Oracle) (user_id voice_transcript : String)
    (w : World) : Except String LoopState :=
  agentLoopAux oracle user_id 10 (Content.userText voice_transcript)
    { ai_text := FALLBACK_APOLOGY, sends := 0, sent := [], world := w }

/-- History adaptation in `create_gemini_chat`: persisted roles are translated
to the session vocabulary (`user` stays `user`, anything else becomes
`model`). -/
def geminiHistory (history : List Turn) : List (String × String) :=
  history.map (fun turn =>
    (if turn.role = "user" then "user" else "model", turn.content))

/-- The response body of the `/coach` endpoint. -/
structure CoachResponse where
  advice : String
deriving DecidableEq, Repr

/-- The `try`-block of `coach_session`: load the history, build the session,
run the agent loop, persist the new exchange; a raise anywhere in the chain
surfaces as `Except.error`. In this embedding the store operations are total,
so the fallible stage is the remote call inside the loop; the enclosing
handler is stage-agnostic. -/
def coach_body (store : MemoryStore) (w : World) (oracle : Oracle)
    (user_id voice_transcript : String) :
    Except String (String × MemoryStore × World) :=
  let conversation_history := get_conversation_history store user_id
  let _chat_seed := geminiHistory conversation_history
  match agentLoop oracle user_id voice_transcript w with
  | Except.error e => Except.error e
  | Except.ok st =>
      Except.ok (st.ai_text,
        update_conversation_history store user_id voice_transcript st.ai_text,
        st.world)

/-- Embeds `app.coach_session`: the whole request handler. Any exception escaping the
body is caught and converted into a success-shaped response whose advice text
is `"I encountered an error: " ++ str(e)`; the return type (not `Except`)
records that nothing propagates to the transport layer. -/
def coach_session (store : MemoryStore) (w : World) (oracle : Oracle)
    (user_id voice_transcript : String) :
    CoachResponse × MemoryStore × World :=
  match coach_body store w oracle user_id voice_transcript with
  | Except.ok (ai_text, store2, w2) => (⟨ai_text⟩, store2, w2)
  | Except.error e => (⟨"I encountered an error: " ++ e⟩, store, w)

/-! ## Lemmas about `lastN` -/

theorem lastN_length_le (n : Nat) (xs : List α) : (lastN n xs).length ≤ n := by
  simp only [lastN, List.length_drop]
  omega

theorem lastN_of_length_le {n : Nat} {xs : List α} (h : xs.length ≤ n) :
    lastN n xs = xs := by
  simp only [lastN, Nat.sub_eq_zero_of_le h, List.drop_zero]

theorem lastN_append_right {n : Nat} (xs : List α) {ys : List α}
    (h : n ≤ ys.length) : lastN n (xs ++ ys) = lastN n ys := by
  simp only [lastN, List.length_append]
  have hx : xs.length + ys.length - n = xs.length + (ys.length - n) := by omega
  rw [hx, List.drop_append]

theorem lastN_append_left {n : Nat} (xs : List α) {ys : List α}
    (h : ys.length ≤ n) : lastN n (xs ++ ys) = lastN (n - ys.length) xs ++ ys := by
  simp only [lastN, List.length_append]
  have hx : xs.length + ys.length - n = xs.length - (n - ys.length) := by omega
  have hle : xs.length - (n - ys.length) ≤ xs.length := by omega
  rw [hx, List.drop_append_of_le_length hle]

theorem lastN_lastN (m n : Nat) (xs : List α) :
    lastN m (lastN n xs) = lastN (min m n) xs := by
  simp only [lastN, List.length_drop, List.drop_drop]
  congr 1
  omega

theorem lastN_append_lastN (n : Nat) (xs ys : List α) :
    lastN n (lastN n xs ++ ys) = lastN n (xs ++ ys) := by
  by_cases h : n ≤ ys.length
  · rw [lastN_append_right _ h, lastN_append_right _ h]
  · have h' : ys.length ≤ n := Nat.le_of_not_le h
    rw [lastN_append_left _ h', lastN_append_left _ h', lastN_lastN]
    have : min (n - ys.length) n = n - ys.length := by omega
    rw [this]

/-! ## Memory-store lemmas and claims C6, C9 -/

/-- A sequence of completed exchanges appended through
`update_conversation_history`, one call per exchange. -/
def applyExchanges (store : MemoryStore) (uid : String) :
    List (String × String) → MemoryStore
  | [] => store
  | (q, a) :: rest =>
      applyExchanges (update_conversation_history store uid q a) uid rest

/-- The transcript turns of a list of exchanges, oldest first. -/
def exchangeTurns : List (String × String) → List Turn
  | [] => []
  | (q, a) :: rest => Turn.mk "user" q :: Turn.mk "assistant" a :: exchangeTurns rest

theorem exchangeTurns_append (xs ys : List (String × String)) :
    exchangeTurns (xs ++ ys) = exchangeTurns xs ++ exchangeTurns ys := by
  induction xs with
  | nil => rfl
  | cons hd tl ih =>
      obtain ⟨q, a⟩ := hd
      simp [exchangeTurns, ih]

theorem length_exchangeTurns (xs : List (String × String)) :
    (exchangeTurns xs).length = 2 * xs.length := by
  induction xs with
  | nil => rfl
  | cons hd tl ih =>
      obtain ⟨q, a⟩ := hd
      simp [exchangeTurns, ih]
      omega

theorem update_conversation_history_self (store : MemoryStore)
    (uid q a : String) :
    update_conversation_history store uid q a uid =
      some (lastN MAX_HISTORY_LENGTH
        (get_conversation_history store uid ++ [Turn.mk "user" q, Turn.mk "assistant" a])) := by
  simp [update_conversation_history]

theorem get_update_conversation_history (store : MemoryStore)
    (uid q a : String) :
    get_conversation_history (update_conversation_history store uid q a) uid =
      lastN MAX_HISTORY_LENGTH
        (get_conversation_history store uid ++ [Turn.mk "user" q, Turn.mk "assistant" a]) := by
  simp only [get_conversation_history, update_conversation_history_self]
  exact lastN_of_length_le (lastN_length_le _ _)

theorem applyExchanges_self (uid : String) :
    ∀ (exchanges : List (String × String)) (store : MemoryStore),
      exchanges ≠ [] →
      applyExchanges store uid exchanges uid =
        some (lastN MAX_HISTORY_LENGTH
          (get_conversation_history store uid ++ exchangeTurns exchanges)) := by
  intro exchanges
  induction exchanges with
  | nil => intro store h; exact absurd rfl h
  | cons hd tl ih =>
      intro store _
      obtain ⟨q, a⟩ := hd
      by_cases htl : tl = []
      · subst htl
        simp only [applyExchanges, exchangeTurns]
        rw [update_conversation_history_self]
      · have step := ih (update_conversation_history store uid q a) htl
        simp only [applyExchanges, step, get_update_conversation_history]
        rw [lastN_append_lastN, List.append_assoc]
        rfl

/-- Claim C6: after more than five exchanges have been appended via
`update_conversation_history`, the stored history for that user is exactly
the turns of the most recent five exchanges (ten turns), oldest first. -/
theorem history_retention_c6 (store : MemoryStore) (uid : String)
    (exchanges : List (String × String)) (h : 5 < exchanges.length) :
    applyExchanges store uid exchanges uid =
      some (exchangeTurns (lastN 5 exchanges)) ∧
    (exchangeTurns (lastN 5 exchanges)).length = 10 := by
  have hne : exchanges ≠ [] := by
    intro hx; rw [hx] at h; simp at h
  have hlen5 : (lastN 5 exchanges).length = 5 := by
    simp only [lastN, List.length_drop]; omega
  constructor
  · rw [applyExchanges_self uid exchanges store hne]
    have hsplit : exchanges =
        exchanges.take (exchanges.length - 5) ++ lastN 5 exchanges := by
      simp [lastN]
    have hlen10 : MAX_HISTORY_LENGTH ≤ (exchangeTurns exchanges).length := by
      rw [length_exchangeTurns, MAX_HISTORY_LENGTH]; omega
    rw [lastN_append_right _ hlen10]
    conv_lhs => rw [hsplit]
    rw [exchangeTurns_append]
    have hlen2 : MAX_HISTORY_LENGTH ≤ (exchangeTurns (lastN 5 exchanges)).length := by
      rw [length_exchangeTurns, hlen5, MAX_HISTORY_LENGTH]
    rw [lastN_append_right _ hlen2]
    rw [lastN_of_length_le (by rw [length_exchangeTurns, hlen5, MAX_HISTORY_LENGTH])]
  · rw [length_exchangeTurns, hlen5]

/-- Concrete run of claim C6: six exchanges leave exactly the last five. -/
theorem history_retention_c6_witness :
    5 < ([("q1", "a1"), ("q2", "a2"), ("q3", "a3"), ("q4", "a4"), ("q5", "a5"),
          ("q6", "a6")] : List (String × String)).length ∧
    applyExchanges (fun _ => none) "u"
        [("q1", "a1"), ("q2", "a2"), ("q3", "a3"), ("q4", "a4"), ("q5", "a5"),
         ("q6", "a6")] "u" =
      some (exchangeTurns (lastN 5
        [("q1", "a1"), ("q2", "a2"), ("q3", "a3"), ("q4", "a4"), ("q5", "a5"),
         ("q6", "a6")])) :=
  ⟨by decide,
   (history_retention_c6 (fun _ => none) "u"
     [("q1", "a1"), ("q2", "a2"), ("q3", "a3"), ("q4", "a4"), ("q5", "a5"),
      ("q6", "a6")] (by decide)).1⟩

/-- Claim C9: an exchange written through the store and re-read for the same
user id comes back exactly as written — the re-read history is the stored
list itself, namely the retained window of the previous history (in its
original order) followed by the new user/assistant pair unchanged. -/
theorem history_roundtrip_c9 (store : MemoryStore) (uid q a : String) :
    get_conversation_history (update_conversation_history store uid q a) uid =
      lastN 8 (get_conversation_history store uid) ++
        [Turn.mk "user" q, Turn.mk "assistant" a] ∧
    update_conversation_history store uid q a uid =
      some (get_conversation_history
        (update_conversation_history store uid q a) uid) := by
  have hmain : get_conversation_history (update_conversation_history store uid q a) uid =
      lastN 8 (get_conversation_history store uid) ++
        [Turn.mk "user" q, Turn.mk "assistant" a] := by
    rw [get_update_conversation_history]
    have h2 : ([Turn.mk "user" q, Turn.mk "assistant" a] : List Turn).length ≤
        MAX_HISTORY_LENGTH := by simp [MAX_HISTORY_LENGTH]
    rw [lastN_append_left _ h2]
    rfl
  refine ⟨hmain, ?_⟩
  rw [update_conversation_history_self, get_update_conversation_history]

/-! ## Profile-store claims C7, C10 -/

/-- Claim C7: updating a profile with only `weight_kg` supplied leaves a
previously stored `ftp` unchanged, and symmetrically updating with only `ftp`
leaves the stored weight unchanged; the record is created implicitly on the
first update. -/
theorem profile_partial_update_c7 (profiles : ProfileStore) (uid : String)
    (wv fv : ℚ) :
    ((update_user_profile profiles uid (some wv) none).1 uid).map Profile.ftp =
      some (get_user_profile profiles uid).ftp ∧
    ((update_user_profile profiles uid none (some fv)).1 uid).map Profile.weight_kg =
      some (get_user_profile profiles uid).weight_kg ∧
    (profiles uid = none →
      ((update_user_profile profiles uid (some wv) none).1 uid).isSome = true) := by
  refine ⟨?_, ?_, ?_⟩
  · simp only [update_user_profile, get_user_profile, pyTruthy]
    by_cases hw : wv = 0 <;> simp [hw]
  · simp only [update_user_profile, get_user_profile, pyTruthy]
    by_cases hf : fv = 0 <;> simp [hf]
  · intro _
    simp [update_user_profile]

/-- Concrete run of claim C7: a first update with only a weight creates the
record and a later ftp-only update leaves that weight untouched. -/
theorem profile_partial_update_c7_witness :
    ((fun _ => none : ProfileStore) "alice" = none) ∧
    ((update_user_profile (fun _ => none) "alice" (some 70) none).1 "alice").isSome = true ∧
    ((update_user_profile (fun _ => none) "alice" (some 70) none).1 "alice").map Profile.ftp =
      some (get_user_profile (fun _ => none) "alice").ftp :=
  ⟨rfl,
   (profile_partial_update_c7 (fun _ => none) "alice" 70 250).2.2 rfl,
   (profile_partial_update_c7 (fun _ => none) "alice" 70 250).1⟩

/-- Claim C10: a supplied-but-zero stat behaves exactly as an absent one —
the truthiness guards make `update_user_profile` with `weight_kg = 0` (or
`ftp = 0`) identical to the call without that field, the stored weight
survives a zero-weight update, and a stored non-zero weight can never be
overwritten with zero through this interface. -/
theorem zero_stat_ignored_c10 (profiles : ProfileStore) (uid : String)
    (w0 f0 : Option ℚ) :
    update_user_profile profiles uid (some 0) f0 =
      update_user_profile profiles uid none f0 ∧
    update_user_profile profiles uid w0 (some 0) =
      update_user_profile profiles uid w0 none ∧
    ((update_user_profile profiles uid (some 0) f0).1 uid).map Profile.weight_kg =
      some (get_user_profile profiles uid).weight_kg ∧
    (∀ v : ℚ, (get_user_profile profiles uid).weight_kg = some v → v ≠ 0 →
      ((update_user_profile profiles uid (some 0) f0).1 uid).map Profile.weight_kg =
        some (some v)) := by
  have hzero : pyTruthy (some 0) = false := by decide
  have hnone : pyTruthy none = false := rfl
  have hweight : ((update_user_profile profiles uid (some 0) f0).1 uid).map Profile.weight_kg =
      some (get_user_profile profiles uid).weight_kg := by
    simp only [update_user_profile, get_user_profile, hzero, Bool.false_eq_true,
      if_false, if_pos rfl, Option.map_some]
    by_cases hf : pyTruthy f0 <;> simp [hf]
  refine ⟨?_, ?_, hweight, ?_⟩
  · simp [update_user_profile, hzero, hnone]
  · simp [update_user_profile, hzero, hnone]
  · intro v hv _
    rw [hweight, hv]

/-- Concrete run of claim C10: a stored weight of seventy survives an update
that supplies weight zero. -/
theorem zero_stat_ignored_c10_witness :
    (get_user_profile
        (fun uid => if uid = "alice" then some ⟨some 70, none⟩ else none)
        "alice").weight_kg = some 70 ∧
    (70 : ℚ) ≠ 0 ∧
    ((update_user_profile
        (fun uid => if uid = "alice" then some ⟨some 70, none⟩ else none)
        "alice" (some 0) (some 250)).1 "alice").map Profile.weight_kg =
      some (some 70) :=
  ⟨rfl, by norm_num,
   (zero_stat_ignored_c10
      (fun uid => if uid = "alice" then some ⟨some 70, none⟩ else none)
      "alice" (some 0) (some 250)).2.2.2 70 rfl (by norm_num)⟩

/-! ## Agent-loop lemmas and claims C1-C4 -/

/-- A concrete environment for witness runs: no stored profiles, a Strava
backend whose activity fetch raises, no stream data. -/
def demoWorld : World :=
  { profiles := fun _ => none
    fetchActivities := fun _ _ => Except.error "HTTPException: 500: Strava fetch failed"
    fetchStreams := fun _ _ => none
    now := 0 }

/-- A variant of `demoWorld` that differs only in the profile record of the
user `bob`. -/
def demoWorldB : World :=
  { profiles := fun uid => if uid = "bob" then some ⟨some 80, none⟩ else none
    fetchActivities := fun _ _ => Except.error "HTTPException: 500: Strava fetch failed"
    fetchStreams := fun _ _ => none
    now := 0 }

/-- A concrete model for the C3 witness: one tool-call round, then text. -/
def demoOracleC3 : Oracle := fun i =>
  if i = 0 then SendResult.resp (ModelResponse.functionCall "my_progression" [])
  else SendResult.resp (ModelResponse.text "Sorry, I hit an error.")

/-- A non-raising model always lets the loop finish normally, within its
remaining fuel. -/
theorem agentLoopAux_pure_ok (f : Nat → ModelResponse) (uid : String) :
    ∀ (fuel : Nat) (content : Content) (st : LoopState),
      ∃ st', agentLoopAux (pureOracle f) uid fuel content st = Except.ok st' ∧
        st'.sends ≤ st.sends + fuel := by
  intro fuel
  induction fuel with
  | zero => intro content st; exact ⟨st, rfl, Nat.le_refl _⟩
  | succ fuel ih =>
      intro content st
      cases hr : f st.sends with
      | text t =>
          refine ⟨{ st with ai_text := t, sends := st.sends + 1, sent := st.sent ++ [content] }, ?_, ?_⟩
          · simp only [agentLoopAux, pureOracle, hr]
          · show st.sends + 1 ≤ st.sends + (fuel + 1)
            omega
      | functionCall name args =>
          obtain ⟨st', hok, hle⟩ := ih
            (Content.functionResponse name
              (dispatchToolCall st.world uid name args).1)
            { st with sends := st.sends + 1, sent := st.sent ++ [content],
                      world := (dispatchToolCall st.world uid name args).2 }
          refine ⟨st', ?_, ?_⟩
          · simp only [agentLoopAux, pureOracle, hr]
            exact hok
          · have hle' : st'.sends ≤ st.sends + 1 + fuel := hle
            omega

/-- If the first text response within the remaining fuel arrives at round `i`,
the loop returns exactly that text after `i + 1` sends. -/
theorem agentLoopAux_pure_text (f : Nat → ModelResponse) (uid : String) :
    ∀ (fuel : Nat) (content : Content) (st : LoopState) (i : Nat) (t : String),
      st.sends ≤ i → i < st.sends + fuel → f i = ModelResponse.text t →
      (∀ j, st.sends ≤ j → j < i → ∀ u, f j ≠ ModelResponse.text u) →
      ∃ st', agentLoopAux (pureOracle f) uid fuel content st = Except.ok st' ∧
        st'.ai_text = t ∧ st'.sends = i + 1 := by
  intro fuel
  induction fuel with
  | zero => intro content st i t h1 h2 _ _; omega
  | succ fuel ih =>
      intro content st i t h1 h2 ht hfirst
      cases hr : f st.sends with
      | text u =>
          have hi : i = st.sends := by
            by_contra hne
            have : st.sends < i := by omega
            exact hfirst st.sends (Nat.le_refl _) this u hr
          subst hi
          rw [hr] at ht
          cases ht
          refine ⟨{ st with ai_text := t, sends := st.sends + 1, sent := st.sent ++ [content] }, ?_, rfl, rfl⟩
          simp only [agentLoopAux, pureOracle, hr]
      | functionCall name args =>
          have hne : i ≠ st.sends := by
            intro h
            rw [h, hr] at ht
            cases ht
          obtain ⟨st', hok, hai, hsd⟩ := ih
            (Content.functionResponse name
              (dispatchToolCall st.world uid name args).1)
            { st with sends := st.sends + 1, sent := st.sent ++ [content],
                      world := (dispatchToolCall st.world uid name args).2 }
            i t (show st.sends + 1 ≤ i by omega)
            (show i < st.sends + 1 + fuel by omega) ht
            (fun j hj1 hj2 u hu =>
              hfirst j (by have hj1' : st.sends + 1 ≤ j := hj1; omega) hj2 u hu)
          refine ⟨st', ?_, hai, hsd⟩
          simp only [agentLoopAux, pureOracle, hr]
          exact hok

/-- If no text response arrives within the remaining fuel, the loop exhausts
it, keeps its current `ai_text`, and performs exactly `fuel` further sends. -/
theorem agentLoopAux_pure_notext (f : Nat → ModelResponse) (uid : String) :
    ∀ (fuel : Nat) (content : Content) (st : LoopState),
      (∀ j, st.sends ≤ j → j < st.sends + fuel → ∀ u, f j ≠ ModelResponse.text u) →
      ∃ st', agentLoopAux (pureOracle f) uid fuel content st = Except.ok st' ∧
        st'.ai_text = st.ai_text ∧ st'.sends = st.sends + fuel := by
  intro fuel
  induction fuel with
  | zero => intro content st _; exact ⟨st, rfl, rfl, rfl⟩
  | succ fuel ih =>
      intro content st hno
      cases hr : f st.sends with
      | text u =>
          exact absurd hr (hno st.sends (Nat.le_refl _) (by omega) u)
      | functionCall name args =>
          obtain ⟨st', hok, hai, hsd⟩ := ih
            (Content.functionResponse name
              (dispatchToolCall st.world uid name args).1)
            { st with sends := st.sends + 1, sent := st.sent ++ [content],
                      world := (dispatchToolCall st.world uid name args).2 }
            (fun j hj1 hj2 u hu =>
              hno j (by have hj1' : st.sends + 1 ≤ j := hj1; omega)
                (by have hj2' : j < st.sends + 1 + fuel := hj2; omega) u hu)
          refine ⟨st', ?_, hai, ?_⟩
          · simp only [agentLoopAux, pureOracle, hr]
            exact hok
          · have hsd' : st'.sends = st.sends + 1 + fuel := hsd
            omega

/-- Claim C1: for every sequence of remote-model responses the loop makes at
most ten `send_message` calls; the first text response within those ten
rounds becomes the advice, and ten straight function-call rounds leave the
fixed fallback apology after exactly the tenth call, with no eleventh. -/
theorem agent_loop_budget_c1 (f : Nat → ModelResponse)
    (uid transcript : String) (w : World) :
    ∃ st, agentLoop (pureOracle f) uid transcript w = Except.ok st ∧
      st.sends ≤ 10 ∧
      (∀ i t, i < 10 → f i = ModelResponse.text t →
        (∀ j, j < i → ∀ u, f j ≠ ModelResponse.text u) →
        st.ai_text = t ∧ st.sends = i + 1) ∧
      ((∀ i, i < 10 → ∀ u, f i ≠ ModelResponse.text u) →
        st.ai_text = FALLBACK_APOLOGY ∧ st.sends = 10) := by
  obtain ⟨st, hok, hle⟩ := agentLoopAux_pure_ok f uid 10
    (Content.userText transcript)
    { ai_text := FALLBACK_APOLOGY, sends := 0, sent := [], world := w }
  have hok2 : agentLoopAux (pureOracle f) uid 10 (Content.userText transcript)
      { ai_text := FALLBACK_APOLOGY, sends := 0, sent := [], world := w } =
      Except.ok st := hok
  have hle10 : st.sends ≤ 10 := hle
  refine ⟨st, hok, hle10, ?_, ?_⟩
  · intro i t hi ht hfirst
    obtain ⟨st', hok', hai, hsd⟩ := agentLoopAux_pure_text f uid 10
      (Content.userText transcript)
      { ai_text := FALLBACK_APOLOGY, sends := 0, sent := [], world := w }
      i t (Nat.zero_le _) (show i < 0 + 10 by omega) ht
      (fun j _ hj u hu => hfirst j hj u hu)
    rw [hok'] at hok2
    cases hok2
    exact ⟨hai, hsd⟩
  · intro hno
    obtain ⟨st', hok', hai, hsd⟩ := agentLoopAux_pure_notext f uid 10
      (Content.userText transcript)
      { ai_text := FALLBACK_APOLOGY, sends := 0, sent := [], world := w }
      (fun j _ hj u hu => hno j (by have hj' : j < 0 + 10 := hj; omega) u hu)
    rw [hok'] at hok2
    cases hok2
    exact ⟨hai, hsd⟩

/-- Concrete run of claim C1: a model that answers every round with a
function call gets exactly ten round-trips and the fallback apology. -/
theorem agent_loop_budget_c1_witness :
    ∃ st, agentLoop
        (pureOracle (fun _ => ModelResponse.functionCall "bogus_tool" []))
        "u" "how did I do?" demoWorld = Except.ok st ∧
      st.ai_text = FALLBACK_APOLOGY ∧ st.sends = 10 := by
  obtain ⟨st, hok, _, _, hfall⟩ := agent_loop_budget_c1
    (fun _ => ModelResponse.functionCall "bogus_tool" []) "u" "how did I do?"
    demoWorld
  obtain ⟨hai, hsd⟩ := hfall (fun i _ u hu => ModelResponse.noConfusion hu)
  exact ⟨st, hok, hai, hsd⟩

/-- Claim C2: a function-call directive naming a tool outside the dispatch
map produces the in-band error string containing the requested name, never an
exception, and the loop continues with that error fed back as a function
response tagged with the tool name. -/
theorem unknown_tool_inband_c2 (oracle : Oracle) (uid name : String)
    (args : Args) (fuel : Nat) (content : Content) (st : LoopState)
    (hname : GEMINI_TOOL_MAP name = none)
    (horacle : oracle st.sends =
      SendResult.resp (ModelResponse.functionCall name args)) :
    dispatchToolCall st.world uid name args =
      ("Error: Tool " ++ name ++ " not found.", st.world) ∧
    (∃ pre post, "Error: Tool " ++ name ++ " not found." = pre ++ name ++ post) ∧
    agentLoopAux oracle uid (fuel + 1) content st =
      agentLoopAux oracle uid fuel
        (Content.functionResponse name ("Error: Tool " ++ name ++ " not found."))
        { st with sends := st.sends + 1, sent := st.sent ++ [content] } := by
  have hdisp : dispatchToolCall st.world uid name args =
      ("Error: Tool " ++ name ++ " not found.", st.world) := by
    simp only [dispatchToolCall, hname]
  refine ⟨hdisp, ⟨"Error: Tool ", " not found.", rfl⟩, ?_⟩
  simp only [agentLoopAux, horacle, hdisp]

/-- Concrete run of claim C2: the model asks for `bogus_tool`; the dispatch
step synthesizes the not-found error and the loop carries on with it. -/
theorem unknown_tool_inband_c2_witness :
    dispatchToolCall demoWorld "u" "bogus_tool" [] =
      ("Error: Tool bogus_tool not found.", demoWorld) ∧
    agentLoopAux (fun _ => SendResult.resp
        (ModelResponse.functionCall "bogus_tool" [])) "u" 10
        (Content.userText "hi")
        { ai_text := FALLBACK_APOLOGY, sends := 0, sent := [], world := demoWorld } =
      agentLoopAux (fun _ => SendResult.resp
        (ModelResponse.functionCall "bogus_tool" [])) "u" 9
        (Content.functionResponse "bogus_tool" "Error: Tool bogus_tool not found.")
        { ai_text := FALLBACK_APOLOGY, sends := 1,
          sent := [Content.userText "hi"], world := demoWorld } := by
  obtain ⟨h1, _, h3⟩ := unknown_tool_inband_c2
    (fun _ => SendResult.resp (ModelResponse.functionCall "bogus_tool" []))
    "u" "bogus_tool" [] 9 (Content.userText "hi")
    { ai_text := FALLBACK_APOLOGY, sends := 0, sent := [], world := demoWorld }
    rfl rfl
  exact ⟨h1, h3⟩

/-- Claim C3: when the execution of a registered tool raises, the exception stops
at the dispatch boundary: the loop feeds back the in-band error string built
from the tool name and the exception message and proceeds to the next
model round-trip. -/
theorem tool_exception_inband_c3 (oracle : Oracle) (uid name : String)
    (args : Args) (fuel : Nat) (content : Content) (st : LoopState)
    (func_to_run : String → Args → World → Except String (String × World))
    (e : String)
    (hname : GEMINI_TOOL_MAP name = some func_to_run)
    (hrun : func_to_run uid args st.world = Except.error e)
    (horacle : oracle st.sends =
      SendResult.resp (ModelResponse.functionCall name args)) :
    dispatchToolCall st.world uid name args =
      ("Error executing " ++ name ++ ": " ++ e, st.world) ∧
    (∃ pre post, "Error executing " ++ name ++ ": " ++ e = pre ++ name ++ post) ∧
    (∃ pre2, "Error executing " ++ name ++ ": " ++ e = pre2 ++ e) ∧
    agentLoopAux oracle uid (fuel + 1) content st =
      agentLoopAux oracle uid fuel
        (Content.functionResponse name ("Error executing " ++ name ++ ": " ++ e))
        { st with sends := st.sends + 1, sent := st.sent ++ [content] } ∧
    (∀ t k, fuel = k + 1 →
      oracle (st.sends + 1) = SendResult.resp (ModelResponse.text t) →
      ∃ st2, agentLoopAux oracle uid (fuel + 1) content st = Except.ok st2 ∧
        st2.ai_text = t ∧ st2.sends = st.sends + 2) := by
  have hdisp : dispatchToolCall st.world uid name args =
      ("Error executing " ++ name ++ ": " ++ e, st.world) := by
    simp only [dispatchToolCall, hname, hrun]
  have hstep : agentLoopAux oracle uid (fuel + 1) content st =
      agentLoopAux oracle uid fuel
        (Content.functionResponse name ("Error executing " ++ name ++ ": " ++ e))
        { st with sends := st.sends + 1, sent := st.sent ++ [content] } := by
    simp only [agentLoopAux, horacle, hdisp]
  refine ⟨hdisp, ⟨"Error executing ", ": " ++ e, by simp [String.append_assoc]⟩,
    ⟨"Error executing " ++ name ++ ": ", by simp [String.append_assoc]⟩, hstep, ?_⟩
  intro t k hk horacle2
  subst hk
  rw [hstep]
  simp only [agentLoopAux, horacle2]
  exact ⟨_, rfl, rfl, rfl⟩

/-- Concrete run of claim C3: the progression tool raises on an upstream
failure and the following round-trip still reaches the model, which answers
with text. -/
theorem tool_exception_inband_c3_witness :
    GEMINI_TOOL_MAP "my_progression" = some call_check_progression ∧
    call_check_progression "u" [] demoWorld =
      Except.error "HTTPException: 500: Strava fetch failed" ∧
    (∃ st2, agentLoopAux demoOracleC3 "u" 10 (Content.userText "hi")
        { ai_text := FALLBACK_APOLOGY, sends := 0, sent := [], world := demoWorld } =
        Except.ok st2 ∧ st2.ai_text = "Sorry, I hit an error." ∧ st2.sends = 2) := by
  obtain ⟨_, _, _, _, hnext⟩ := tool_exception_inband_c3 demoOracleC3 "u"
    "my_progression" [] 9 (Content.userText "hi")
    { ai_text := FALLBACK_APOLOGY, sends := 0, sent := [], world := demoWorld }
    call_check_progression "HTTPException: 500: Strava fetch failed"
    rfl rfl rfl
  exact ⟨rfl, rfl, hnext "Sorry, I hit an error." 8 rfl rfl⟩

/-- Claim C4: any exception escaping the request body is caught at the
`coach_session` boundary and becomes a success-shaped response whose advice
text contains the exception message; the handler return type carries no
error case, so nothing reaches the transport layer. -/
theorem handler_failsoft_c4 (store : MemoryStore) (w : World) (oracle : Oracle)
    (uid transcript e : String)
    (h : coach_body store w oracle uid transcript = Except.error e) :
    coach_session store w oracle uid transcript =
      (⟨"I encountered an error: " ++ e⟩, store, w) ∧
    (∃ pre, "I encountered an error: " ++ e = pre ++ e) := by
  refine ⟨?_, ⟨"I encountered an error: ", rfl⟩⟩
  simp only [coach_session, h]

/-- Concrete run of claim C4: the very first remote call raises and the
client still receives a success-shaped apology carrying the message. -/
theorem handler_failsoft_c4_witness :
    coach_body (fun _ => none) demoWorld (fun _ => SendResult.raise "boom")
      "u" "hi" = Except.error "boom" ∧
    coach_session (fun _ => none) demoWorld (fun _ => SendResult.raise "boom")
      "u" "hi" =
      (⟨"I encountered an error: boom"⟩, (fun _ => none), demoWorld) := by
  have hbody : coach_body (fun _ => none) demoWorld
      (fun _ => SendResult.raise "boom") "u" "hi" = Except.error "boom" := rfl
  exact ⟨hbody, (handler_failsoft_c4 (fun _ => none) demoWorld
    (fun _ => SendResult.raise "boom") "u" "hi" "boom" hbody).1⟩

/-! ## User-binding and isolation lemmas, claim C5 -/

/-- What a tool call exposes about one user: the result text (or exception)
and the profile record of that user in the world the call leaves behind. -/
def toolObs (uid : String) (r : Except String (String × World)) :
    Except String (String × Option Profile) :=
  r.map (fun p => (p.1, p.2.profiles uid))

theorem GEMINI_TOOL_MAP_cases {name : String}
    {f : String → Args → World → Except String (String × World)}
    (hm : GEMINI_TOOL_MAP name = some f) :
    f = call_get_recent_activities_summary ∨
    f = call_analyze_specific_ride_depth ∨
    f = call_check_progression ∨
    f = call_update_user_physical_stats := by
  unfold GEMINI_TOOL_MAP at hm
  split_ifs at hm <;> simp_all

theorem call_recent_ok_world {uid : String} {args : Args} {w : World}
    {p : String × World}
    (h : call_get_recent_activities_summary uid args w = Except.ok p) :
    p.2 = w := by
  unfold call_get_recent_activities_summary get_recent_activities_summary at h
  split at h
  · exact Except.noConfusion h
  · split at h
    · exact Except.noConfusion h
    · split at h
      · exact Except.noConfusion h
      · split at h
        · injection h with h2
          rw [← h2]
        · injection h with h2
          rw [← h2]

theorem call_analyze_ok_world {uid : String} {args : Args} {w : World}
    {p : String × World}
    (h : call_analyze_specific_ride_depth uid args w = Except.ok p) :
    p.2 = w := by
  unfold call_analyze_specific_ride_depth analyze_specific_ride_depth at h
  split at h
  · exact Except.noConfusion h
  · split at h
    · exact Except.noConfusion h
    · split at h
      · exact Except.noConfusion h
      · split at h
        · injection h with h2
          rw [← h2]
        · injection h with h2
          rw [← h2]

theorem call_progression_ok_world {uid : String} {args : Args} {w : World}
    {p : String × World}
    (h : call_check_progression uid args w = Except.ok p) : p.2 = w := by
  unfold call_check_progression check_progression at h
  split at h
  · exact Except.noConfusion h
  · split at h
    · exact Except.noConfusion h
    · split at h
      · exact Except.noConfusion h
      · split at h
        · injection h with h2
          rw [← h2]
        · split at h
          · exact Except.noConfusion h
          · injection h with h2
            rw [← h2]

theorem call_update_ok_world {uid : String} {args : Args} {w : World}
    {p : String × World}
    (h : call_update_user_physical_stats uid args w = Except.ok p) :
    (∀ v, v ≠ uid → p.2.profiles v = w.profiles v) ∧
    p.2.fetchActivities = w.fetchActivities ∧
    p.2.fetchStreams = w.fetchStreams ∧ p.2.now = w.now := by
  unfold call_update_user_physical_stats update_user_physical_stats
    update_user_profile at h
  split at h
  · exact Except.noConfusion h
  · split at h
    · exact Except.noConfusion h
    · injection h with h2
      rw [← h2]
      refine ⟨?_, rfl, rfl, rfl⟩
      intro v hv
      show (if v = uid then _ else w.profiles v) = w.profiles v
      rw [if_neg hv]

theorem dispatchToolCall_unknown {w : World} {uid name : String} {args : Args}
    (hm : GEMINI_TOOL_MAP name = none) :
    dispatchToolCall w uid name args =
      ("Error: Tool " ++ name ++ " not found.", w) := by
  simp only [dispatchToolCall, hm]

theorem dispatchToolCall_error {w : World} {uid name : String} {args : Args}
    {f : String → Args → World → Except String (String × World)} {e : String}
    (hm : GEMINI_TOOL_MAP name = some f)
    (hr : f uid args w = Except.error e) :
    dispatchToolCall w uid name args =
      ("Error executing " ++ name ++ ": " ++ e, w) := by
  simp only [dispatchToolCall, hm, hr]

theorem dispatchToolCall_ok {w w2 : World} {uid name r : String} {args : Args}
    {f : String → Args → World → Except String (String × World)}
    (hm : GEMINI_TOOL_MAP name = some f)
    (hr : f uid args w = Except.ok (r, w2)) :
    dispatchToolCall w uid name args = (r, w2) := by
  simp only [dispatchToolCall, hm, hr]

/-- The world a dispatched tool call leaves behind differs from the incoming
world at most in the profile record of the dispatching user. -/
theorem dispatch_frame (w : World) (uid name : String) (args : Args) :
    (∀ v, v ≠ uid → (dispatchToolCall w uid name args).2.profiles v = w.profiles v) ∧
    (dispatchToolCall w uid name args).2.fetchActivities = w.fetchActivities ∧
    (dispatchToolCall w uid name args).2.fetchStreams = w.fetchStreams ∧
    (dispatchToolCall w uid name args).2.now = w.now := by
  cases hm : GEMINI_TOOL_MAP name with
  | none =>
      rw [dispatchToolCall_unknown hm]
      exact ⟨fun v _ => rfl, rfl, rfl, rfl⟩
  | some f =>
      cases hr : f uid args w with
      | error e =>
          rw [dispatchToolCall_error hm hr]
          exact ⟨fun v _ => rfl, rfl, rfl, rfl⟩
      | ok p =>
          obtain ⟨r, w2⟩ := p
          rw [dispatchToolCall_ok hm hr]
          rcases GEMINI_TOOL_MAP_cases hm with h4 | h4 | h4 | h4 <;> subst h4
          · have h5 : w2 = w := call_recent_ok_world hr
            subst h5
            exact ⟨fun v _ => rfl, rfl, rfl, rfl⟩
          · have h5 : w2 = w := call_analyze_ok_world hr
            subst h5
            exact ⟨fun v _ => rfl, rfl, rfl, rfl⟩
          · have h5 : w2 = w := call_progression_ok_world hr
            subst h5
            exact ⟨fun v _ => rfl, rfl, rfl, rfl⟩
          · exact call_update_ok_world hr

theorem call_recent_obs {uid : String} (args : Args) {w w' : World}
    (hp : w.profiles uid = w'.profiles uid)
    (ha : w.fetchActivities uid = w'.fetchActivities uid) :
    toolObs uid (call_get_recent_activities_summary uid args w) =
      toolObs uid (call_get_recent_activities_summary uid args w') := by
  unfold call_get_recent_activities_summary
  split
  · rfl
  · split
    · rfl
    · unfold get_recent_activities_summary get_user_profile
      rw [ha, hp]
      cases hf : w'.fetchActivities uid 14 with
      | error e => rfl
      | ok raw =>
          by_cases hraw : raw = [] <;>
            simp [toolObs, Except.map, hraw, hp]

theorem call_analyze_obs {uid : String} (args : Args) {w w' : World}
    (hp : w.profiles uid = w'.profiles uid)
    (hs : w.fetchStreams uid = w'.fetchStreams uid) :
    toolObs uid (call_analyze_specific_ride_depth uid args w) =
      toolObs uid (call_analyze_specific_ride_depth uid args w') := by
  unfold call_analyze_specific_ride_depth
  split
  · rfl
  · split
    · rfl
    · split
      · rfl
      · unfold analyze_specific_ride_depth
        rw [hs]
        next aid _ =>
          cases hstr : w'.fetchStreams uid aid with
          | none => simp [toolObs, Except.map, hp]
          | some streams => simp [toolObs, Except.map, hp]

theorem call_progression_obs {uid : String} (args : Args) {w w' : World}
    (hp : w.profiles uid = w'.profiles uid)
    (ha : w.fetchActivities uid = w'.fetchActivities uid)
    (hnow : w.now = w'.now) :
    toolObs uid (call_check_progression uid args w) =
      toolObs uid (call_check_progression uid args w') := by
  unfold call_check_progression
  split
  · rfl
  · split
    · rfl
    · unfold check_progression
      rw [ha, hnow]
      cases hf : w'.fetchActivities uid 30 with
      | error e => rfl
      | ok raw =>
          by_cases hraw : raw = []
          · simp [toolObs, Except.map, hraw, hp]
          · cases hsp : splitByDate (w'.now - 7) raw with
            | error e => simp [toolObs, Except.map, hraw, hsp]
            | ok pair =>
                obtain ⟨cur, past⟩ := pair
                simp [toolObs, Except.map, hraw, hsp, hp]

theorem call_update_obs {uid : String} (args : Args) {w w' : World}
    (hp : w.profiles uid = w'.profiles uid) :
    toolObs uid (call_update_user_physical_stats uid args w) =
      toolObs uid (call_update_user_physical_stats uid args w') := by
  unfold call_update_user_physical_stats
  split
  · rfl
  · split
    · rfl
    · unfold update_user_physical_stats update_user_profile
      rw [hp]
      simp [toolObs, Except.map]

/-- Glue: observational agreement of the mapped tool lifts to the dispatch
step. -/
theorem dispatch_obs_of_toolObs {uid name : String} {args : Args} {w w' : World}
    {f : String → Args → World → Except String (String × World)}
    (hm : GEMINI_TOOL_MAP name = some f)
    (hobs : toolObs uid (f uid args w) = toolObs uid (f uid args w'))
    (hp : w.profiles uid = w'.profiles uid) :
    (dispatchToolCall w uid name args).1 = (dispatchToolCall w' uid name args).1 ∧
    (dispatchToolCall w uid name args).2.profiles uid =
      (dispatchToolCall w' uid name args).2.profiles uid := by
  cases h1 : f uid args w with
  | error e =>
      cases h2 : f uid args w' with
      | error e2 =>
          rw [h1, h2] at hobs
          simp only [toolObs, Except.map, Except.error.injEq] at hobs
          subst hobs
          rw [dispatchToolCall_error hm h1, dispatchToolCall_error hm h2]
          exact ⟨rfl, hp⟩
      | ok q =>
          rw [h1, h2] at hobs
          simp only [toolObs, Except.map] at hobs
          exact Except.noConfusion hobs
  | ok p =>
      cases h2 : f uid args w' with
      | error e2 =>
          rw [h1, h2] at hobs
          simp only [toolObs, Except.map] at hobs
          exact Except.noConfusion hobs
      | ok q =>
          obtain ⟨r, w2⟩ := p
          obtain ⟨r2, w2'⟩ := q
          rw [h1, h2] at hobs
          simp only [toolObs, Except.map, Except.ok.injEq, Prod.mk.injEq] at hobs
          rw [dispatchToolCall_ok hm h1, dispatchToolCall_ok hm h2]
          exact hobs

/-- Claim C5: the tool declarations shown to the model carry no user-id
parameter; a model-supplied `user_id` argument makes the bound call raise
before any tool body runs (so the injected request user id always wins); and
a dispatched tool call can read and write only the data belonging to the
dispatching user — the profile records of all other users and the fetch
environment of every user are untouched, and the outcome depends only on
the slice of the world owned by the request user. -/
theorem user_binding_c5 :
    (∀ d ∈ gemini_tool_declarations, "user_id" ∉ d.params) ∧
    (∀ (name uid : String) (args : Args) (w : World)
        (f : String → Args → World → Except String (String × World)),
      GEMINI_TOOL_MAP name = some f →
      (args.map Prod.fst).contains "user_id" = true →
      ∃ e, f uid args w = Except.error e) ∧
    (∀ (w : World) (uid name : String) (args : Args),
      (∀ v, v ≠ uid →
        (dispatchToolCall w uid name args).2.profiles v = w.profiles v) ∧
      (dispatchToolCall w uid name args).2.fetchActivities = w.fetchActivities ∧
      (dispatchToolCall w uid name args).2.fetchStreams = w.fetchStreams ∧
      (dispatchToolCall w uid name args).2.now = w.now) ∧
    (∀ (w w' : World) (uid name : String) (args : Args),
      w.profiles uid = w'.profiles uid →
      w.fetchActivities uid = w'.fetchActivities uid →
      w.fetchStreams uid = w'.fetchStreams uid →
      w.now = w'.now →
      (dispatchToolCall w uid name args).1 = (dispatchToolCall w' uid name args).1 ∧
      (dispatchToolCall w uid name args).2.profiles uid =
        (dispatchToolCall w' uid name args).2.profiles uid) := by
  refine ⟨?_, ?_, ?_, ?_⟩
  · intro d hd
    simp only [gemini_tool_declarations, List.mem_cons, List.mem_singleton] at hd
    rcases hd with h | h | h | h | h <;> first
      | (subst h; simp)
      | exact absurd h (List.not_mem_nil d)
  · intro name uid args w f hm hc
    rcases GEMINI_TOOL_MAP_cases hm with h4 | h4 | h4 | h4 <;> subst h4
    · exact ⟨_, by unfold call_get_recent_activities_summary; rw [if_pos hc]⟩
    · exact ⟨_, by unfold call_analyze_specific_ride_depth; rw [if_pos hc]⟩
    · exact ⟨_, by unfold call_check_progression; rw [if_pos hc]⟩
    · exact ⟨_, by unfold call_update_user_physical_stats; rw [if_pos hc]⟩
  · intro w uid name args
    exact dispatch_frame w uid name args
  · intro w w' uid name args hp ha hs hnow
    cases hm : GEMINI_TOOL_MAP name with
    | none =>
        unfold dispatchToolCall
        rw [hm]
        exact ⟨rfl, hp⟩
    | some f =>
        rcases GEMINI_TOOL_MAP_cases hm with h4 | h4 | h4 | h4 <;> subst h4
        · exact dispatch_obs_of_toolObs hm (call_recent_obs args hp ha) hp
        · exact dispatch_obs_of_toolObs hm (call_analyze_obs args hp hs) hp
        · exact dispatch_obs_of_toolObs hm (call_progression_obs args hp ha hnow) hp
        · exact dispatch_obs_of_toolObs hm (call_update_obs args hp) hp

/-- Concrete run of claim C5: two worlds with the same record for `alice` but
different records for `bob` give the `update_stats` call of `alice` the same
result and the same update, and the record of `bob` survives untouched. -/
theorem user_binding_c5_witness :
    (GEMINI_TOOL_MAP "update_stats" = some call_update_user_physical_stats) ∧
    (∃ e, call_update_user_physical_stats "alice" [("user_id", 1), ("weight_kg", 70)]
      demoWorld = Except.error e) ∧
    ((dispatchToolCall demoWorld "alice" "update_stats" [("weight_kg", 70)]).2.profiles "bob" =
      demoWorld.profiles "bob") ∧
    ((dispatchToolCall demoWorld "alice" "update_stats" [("weight_kg", 70)]).1 =
      (dispatchToolCall demoWorldB "alice" "update_stats" [("weight_kg", 70)]).1) := by
  have hm : GEMINI_TOOL_MAP "update_stats" = some call_update_user_physical_stats := rfl
  refine ⟨hm, ?_, ?_, ?_⟩
  · exact user_binding_c5.2.1 "update_stats" "alice"
      [("user_id", 1), ("weight_kg", 70)] demoWorld
      call_update_user_physical_stats hm rfl
  · exact (user_binding_c5.2.2.1 demoWorld "alice" "update_stats"
      [("weight_kg", 70)]).1 "bob" (by decide)
  · exact (user_binding_c5.2.2.2 demoWorld demoWorldB "alice" "update_stats"
      [("weight_kg", 70)] rfl rfl rfl rfl).1

/-! ## Progression-trend lemmas and claim C8 -/

/-- The percentage-framed trend sentence of `calculate_progression`. -/
def trendStatement (n : Nat) (trend : String) : String :=
  "Your weekly volume is " ++ toString n ++ "% " ++ trend ++
    " compared to your 4-week average."

/-- A string is a percentage-framed trend statement when it is the trend
sentence for some percentage and one of the two trend words. -/
def isTrendStatement (s : String) : Prop :=
  ∃ n : Nat, s = trendStatement n "improving" ∨ s = trendStatement n "decreasing"

/-- The percentage computed inside `calculate_progression`. -/
def progressionPercent (current_week_activities past_month_activities :
    List ProcessedActivity) : ℚ :=
  let current_dist := (current_week_activities.map (·.distance_km)).sum
  let past_dist := (past_month_activities.map (·.distance_km)).sum
  let avg_past_dist_weekly := past_dist / 4
  let avg_past_dist_weekly := if avg_past_dist_weekly = 0 then 1 else avg_past_dist_weekly
  ((current_dist - avg_past_dist_weekly) / avg_past_dist_weekly) * 100

theorem calculate_progression_eq (cur past : List ProcessedActivity)
    (hpast : past ≠ []) :
    calculate_progression cur past =
      "Your weekly volume is " ++ toString (pyInt (progressionPercent cur past)).natAbs ++
        "% " ++ (if progressionPercent cur past > 0 then "improving" else "decreasing") ++
        " compared to your 4-week average." := by
  unfold calculate_progression progressionPercent
  rw [if_neg hpast]

theorem calculate_progression_shape (cur past : List ProcessedActivity)
    (hpast : past ≠ []) :
    ∃ n : Nat, calculate_progression cur past = trendStatement n "improving" ∨
      calculate_progression cur past = trendStatement n "decreasing" := by
  refine ⟨(pyInt (progressionPercent cur past)).natAbs, ?_⟩
  by_cases hD : progressionPercent cur past > 0
  · left
    rw [calculate_progression_eq cur past hpast, if_pos hD]
    rfl
  · right
    rw [calculate_progression_eq cur past hpast, if_neg hD]
    rfl

theorem splitByDate_ok (seven_days_ago : ℤ) :
    ∀ raw : List Activity, (∀ a ∈ raw, a.start_date_local.isSome = true) →
      ∃ cur past, splitByDate seven_days_ago raw = Except.ok (cur, past) ∧
        (past = [] → ∀ a ∈ raw, ∀ d, a.start_date_local = some d →
          d.day > seven_days_ago) := by
  intro raw
  induction raw with
  | nil =>
      intro _
      exact ⟨[], [], rfl, fun _ a ha => absurd ha (List.not_mem_nil a)⟩
  | cons act rest ih =>
      intro hdates
      have hact : act.start_date_local.isSome = true :=
        hdates act (List.mem_cons_self act rest)
      obtain ⟨d, hd⟩ := Option.isSome_iff_exists.mp hact
      obtain ⟨cur, past, hsp, hpast⟩ :=
        ih (fun a ha => hdates a (List.mem_cons_of_mem act ha))
      by_cases hgt : d.day > seven_days_ago
      · refine ⟨process_activity act none :: cur, past, ?_, ?_⟩
        · simp only [splitByDate, hd, hsp]
          rw [if_pos hgt]
        · intro hp0 a ha d2 hd2
          rcases List.mem_cons.mp ha with h | h
          · subst h
            rw [hd] at hd2
            cases hd2
            exact hgt
          · exact hpast hp0 a h d2 hd2
      · refine ⟨cur, process_activity act none :: past, ?_, ?_⟩
        · simp only [splitByDate, hd, hsp]
          rw [if_neg hgt]
        · intro hp0
          exact absurd hp0 (List.cons_ne_nil _ _)

/-- A raw activity dated inside the current seven-day window
(`now = 100`, activity day `100`). -/
def c8ActCurrent : Activity :=
  { Activity.blank with start_date_local := some ⟨100, "2026-10-09"⟩ }

/-- A world whose thirty-day fetch holds exactly one activity, dated inside
the current week. -/
def c8World : World :=
  { profiles := fun _ => none
    fetchActivities := fun _ _ => Except.ok [c8ActCurrent]
    fetchStreams := fun _ _ => none
    now := 100 }

/-- Counterexample to claim C8 as stated: a user with one activity in the
trailing thirty days — but none older than seven days — gets the fixed
not-enough-historical-data sentence, not a percentage-framed trend
statement. -/
theorem progression_trend_c8_counterexample :
    (∃ raw, c8World.fetchActivities "u" 30 = Except.ok raw ∧ raw.length = 1) ∧
    (check_progression "u" c8World).map Prod.fst =
      Except.ok "Not enough historical data to calculate progression." ∧
    ¬ isTrendStatement "Not enough historical data to calculate progression." := by
  refine ⟨⟨[c8ActCurrent], rfl, rfl⟩, rfl, ?_⟩
  rintro ⟨n, h | h⟩ <;>
    · have h2 : (some 'Y' : Option Char) = some 'N' :=
        congrArg (fun s : String => s.data.head?) h.symm
      exact absurd h2 (by decide)

/-- Claim C8, amended: whenever the thirty-day fetch succeeds with a
nonempty, fully-dated activity list that includes at least one activity older
than the seven-day window, `check_progression` returns the percentage-framed
trend statement (improving or decreasing). -/
theorem progression_trend_c8_amended (uid : String) (w : World)
    (raw : List Activity)
    (hfetch : w.fetchActivities uid 30 = Except.ok raw)
    (hne : raw ≠ [])
    (hdates : ∀ a ∈ raw, a.start_date_local.isSome = true)
    (hold : ∃ a ∈ raw, ∃ d, a.start_date_local = some d ∧
      ¬(d.day > w.now - 7)) :
    ∃ n : Nat,
      (check_progression uid w).map Prod.fst =
        Except.ok (trendStatement n "improving") ∨
      (check_progression uid w).map Prod.fst =
        Except.ok (trendStatement n "decreasing") := by
  obtain ⟨cur, past, hsp, hpastimp⟩ := splitByDate_ok (w.now - 7) raw hdates
  have hpast : past ≠ [] := by
    intro hp0
    obtain ⟨a, ha, d, hd, hnot⟩ := hold
    exact hnot (hpastimp hp0 a ha d hd)
  have hcp : check_progression uid w =
      Except.ok (calculate_progression cur past, w) := by
    simp only [check_progression, hfetch, hsp]
    rw [if_neg hne]
  obtain ⟨n, hshape⟩ := calculate_progression_shape cur past hpast
  refine ⟨n, ?_⟩
  rw [hcp]
  rcases hshape with h | h
  · left
    simp only [Except.map, h]
  · right
    simp only [Except.map, h]

/-- A raw activity dated well before the seven-day window. -/
def c8ActOld : Activity :=
  { Activity.blank with start_date_local := some ⟨80, "2026-09-19"⟩ }

/-- A world whose thirty-day fetch holds exactly one activity, dated outside
the current week. -/
def c8WorldOld : World :=
  { profiles := fun _ => none
    fetchActivities := fun _ _ => Except.ok [c8ActOld]
    fetchStreams := fun _ _ => none
    now := 100 }

/-- Concrete run of the amended claim C8: one old activity yields a
percentage-framed trend statement. -/
theorem progression_trend_c8_witness :
    c8WorldOld.fetchActivities "u" 30 = Except.ok [c8ActOld] ∧
    ([c8ActOld] : List Activity) ≠ [] ∧
    (∃ n : Nat,
      (check_progression "u" c8WorldOld).map Prod.fst =
        Except.ok (trendStatement n "improving") ∨
      (check_progression "u" c8WorldOld).map Prod.fst =
        Except.ok (trendStatement n "decreasing")) :=
  ⟨rfl, by simp,
   progression_trend_c8_amended "u" c8WorldOld [c8ActOld] rfl (by simp)
     (by intro a ha; rw [List.mem_singleton.mp ha]; rfl)
     ⟨c8ActOld, List.mem_singleton.mpr rfl, ⟨80, "2026-09-19"⟩, rfl, by decide⟩⟩

end Fitness
